import Mathlib

/-!
# Verification of the AES cipher adapter (`src/lib/crypto/aes.ts`)

A shallow embedding of the AES adapter of `node-webcrypto-p11`:
key-template construction (`create_template`), the manual PKCS#7-style
padding and unpadding performed by `AesCrypto.encrypt` / `AesCrypto.decrypt`,
output-buffer sizing (`AesCrypto.getOutputBufferSize`), key export/import
format handling (`AesCrypto.exportKey` / `AesCrypto.importKey`), and the
GCM mechanism mapper (`AesGCM.wc2pk11`).

Byte buffers are `List Nat` with values below 256; machine arithmetic in
the source is plain JavaScript number arithmetic on small naturals, modelled
with `Nat` (and `Int` where a subtraction can go negative).
-/

namespace AesTs

/-! ## Key template model (`create_template`, aes.ts lines 13-32) -/

/-- Process-wide configuration read from `process.env` in the source
(`WEBCRYPTO_PKCS11_TOKEN`, `WEBCRYPTO_PKCS11_SENSITIVE`), modelled as an
explicit record. -/
structure EnvConfig where
  token : Bool
  sensitive : Bool
deriving DecidableEq, Repr

/-- The object class attribute; the adapter only ever uses `SECRET_KEY`. -/
inductive ObjectClass where
  | SECRET_KEY
deriving DecidableEq, Repr

/-- The key type attribute; the adapter only ever uses `AES`. -/
inductive KeyType where
  | AES
deriving DecidableEq, Repr

/-- `AesKeyGenParams`: algorithm name and bit length. -/
structure AesKeyGenParams where
  name : String
  length : Nat
deriving DecidableEq, Repr

/-- The PKCS#11 key template (`ITemplate`) as populated by the adapter. -/
structure ITemplate where
  token : Bool
  sensitive : Bool
  objectClass : ObjectClass
  keyType : KeyType
  label : String
  id : Nat
  extractable : Bool
  derive : Bool
  sign : Bool
  verify : Bool
  encrypt : Bool
  decrypt : Bool
  wrap : Bool
  unwrap : Bool
  value : Option (List Nat) := none
  valueLen : Option Nat := none
deriving DecidableEq, Repr

/-- `create_template(session, alg, extractable, keyUsages)` (aes.ts 13-32).
The session only supplies the fresh id (`utils.GUID`), modelled by the `id`
argument; the `process.env` flags are the `env` argument. Each usage boolean
is `keyUsages.indexOf(s) !== -1`, i.e. exact string membership. -/
def create_template (env : EnvConfig) (id : Nat) (alg : AesKeyGenParams)
    (extractable : Bool) (keyUsages : List String) : ITemplate where
  token := env.token
  sensitive := env.sensitive
  objectClass := ObjectClass.SECRET_KEY
  keyType := KeyType.AES
  label := "AES-" ++ toString alg.length
  id := id
  extractable := extractable
  derive := false
  sign := keyUsages.contains "sign"
  verify := keyUsages.contains "verify"
  encrypt := keyUsages.contains "encrypt"
  decrypt := keyUsages.contains "decrypt"
  wrap := keyUsages.contains "wrapKey"
  unwrap := keyUsages.contains "unwrapKey"

/-! ## Padding engine (inline in `encrypt` lines 115-122 and `decrypt`
lines 150-161) -/

/-- The padding step of `AesCrypto.encrypt` (aes.ts 115-122):
`mod = 16 - data.length % 16`; append `mod` bytes each of value `mod`. -/
def pad (data : List Nat) : List Nat :=
  let blockLength := 16
  let m := blockLength - data.length % blockLength
  data ++ List.replicate m m

/-- The unpadding step of `AesCrypto.decrypt` (aes.ts 150-161):
`paddingLength = buf[buf.length - 1]` (last byte; JavaScript yields
`undefined` on an empty buffer, which the subsequent arithmetic turns into
an empty slice, so the empty case is modelled by the default 0), then
`buf.slice(0, buf.length - paddingLength)`. `Buffer.slice` interprets a
negative end index as counting from the end of the buffer and clamps the
result at 0, which the `Int` arithmetic below reproduces. -/
def unpad (buf : List Nat) : List Nat :=
  let paddingLength := buf.getLastD 0
  let e : Int := (buf.length : Int) - (paddingLength : Int)
  let takeLen : Nat := if 0 ≤ e then e.toNat else ((buf.length : Int) + e).toNat
  buf.take takeLen

/-! ## Output buffer sizing (`getOutputBufferSize`, aes.ts 184-191) -/

/-- `AesCrypto.getOutputBufferSize(keyAlg, enc, dataSize)` (aes.ts 184-191):
`len = keyAlg.length >> 3`; for encryption
`Math.ceil(dataSize / len) * len + len` (real division under a ceiling,
modelled over `ℚ`), for decryption `dataSize` unchanged. -/
def getOutputBufferSize (keyAlgLength : Nat) (enc : Bool) (dataSize : Nat) : Nat :=
  let len := keyAlgLength >>> 3
  if enc then
    ⌈(dataSize : ℚ) / (len : ℚ)⌉₊ * len + len
  else
    dataSize

/-! ## GCM mechanism mapper (`AesGCM.wc2pk11`, aes.ts 197-207) -/

/-- A module interface version as reported by
`session.slot.module.cryptokiVersion`. -/
structure Version where
  major : Nat
  minor : Nat
deriving DecidableEq, Repr

/-- The two graphene GCM parameter encodings the mapper chooses between. -/
inductive GcmParamsKind where
  | aesGcmParams
  | aesGcm240Params
deriving DecidableEq, Repr

/-- `AesGcmParams` on the WebCrypto side: `iv`, optional `additionalData`,
optional `tagLength`. -/
structure AesGcmWcParams where
  iv : List Nat
  additionalData : Option (List Nat) := none
  tagLength : Option Nat := none
deriving DecidableEq, Repr

/-- The produced mechanism: name `"AES_GCM"` plus the parameter object,
recording which encoding class was instantiated. `utils.PrepareData` is
modelled from the spec: the iv and additional data are passed through
unmodified as byte buffers. -/
structure GcmMechanism where
  name : String
  paramsClass : GcmParamsKind
  iv : List Nat
  aad : Option (List Nat)
  tagLength : Nat
deriving DecidableEq, Repr

/-- `AesGCM.wc2pk11(alg, session)` (aes.ts 197-207). The encoding class
starts as `AesGcmParams` and is upgraded to `AesGcm240Params` only when a
session is supplied and `cryptokiVersion.major >= 2 && cryptokiVersion.minor
>= 40`. The tag length is `alg.tagLength || 128`, where JavaScript `||`
also replaces an explicit 0 by 128. -/
def AesGCM.wc2pk11 (alg : AesGcmWcParams) (session : Option Version) :
    GcmMechanism :=
  let cls := match session with
    | some v =>
        if 2 ≤ v.major ∧ 40 ≤ v.minor then GcmParamsKind.aesGcm240Params
        else GcmParamsKind.aesGcmParams
    | none => GcmParamsKind.aesGcmParams
  { name := "AES_GCM"
    paramsClass := cls
    iv := alg.iv
    aad := alg.additionalData
    tagLength := match alg.tagLength with
      | none => 128
      | some t => if t = 0 then 128 else t }

/-- The ordering "version at least `maj.min`" on dotted interface versions,
as the spec's phrase "version ≥ 2.40" reads: lexicographic comparison of
(major, minor). -/
def Version.atLeast (v : Version) (maj min : Nat) : Prop :=
  maj < v.major ∨ (v.major = maj ∧ min ≤ v.minor)

instance (v : Version) (maj min : Nat) : Decidable (v.atLeast maj min) := by
  unfold Version.atLeast
  infer_instance

/-! ## String helpers used by export/import -/

/-- JavaScript `String.prototype.toLowerCase` as used on format strings
(aes.ts line 65); the format strings involved are ASCII, so the basic-latin
lowercase map suffices. -/
def toLowerCase (s : String) : String := ⟨s.data.map Char.toLower⟩

/-- `\w` of the JavaScript regex engine: `[A-Za-z0-9_]`. -/
def isWordChar (c : Char) : Bool := c.isAlphanum || c = '_'

/-- Whether the regex `/AES-(\w+)/` matches at the head of `cs`; on success
returns the capture group, the maximal run of word characters after
`AES-`. -/
def matchAesAt (cs : List Char) : Option (List Char) :=
  match cs with
  | 'A' :: 'E' :: 'S' :: '-' :: rest =>
      let run := rest.takeWhile isWordChar
      if run.isEmpty then none else some run
  | _ => none

/-- Leftmost match: try `matchAesAt` at each start position in turn. -/
def execAesModeAux : List Char → Option (List Char)
  | [] => none
  | c :: rest =>
      match matchAesAt (c :: rest) with
      | some run => some run
      | none => execAesModeAux rest

/-- `/AES-(\w+)/.exec(name)` (aes.ts line 67), reduced to its first capture
group: `none` models a `null` match result. -/
def execAesMode (s : String) : Option String :=
  (execAesModeAux s.data).map fun cs => ⟨cs⟩

/-! ## Base64url codec

Modelled from the spec: the source calls `Base64Url.encode` of
`webcrypto-core` and `utils.b64_decode` of `../utils`, both outside this
file; the spec describes them as base64url encoding/decoding of the raw key
value ("base64url-encoded raw key value", export) and base64url decoding of
the `k` field (import). The standard unpadded base64url codec over byte
lists follows. -/

/-- Regroup bytes (base-256 digits) into sextets (base-64 digits),
big-endian within each 3-byte block, partial trailing blocks encoded with
the standard bit-shift rules. -/
def toSextets : List Nat → List Nat
  | [] => []
  | [b1] => [b1 / 4, b1 % 4 * 16]
  | [b1, b2] => [b1 / 4, b1 % 4 * 16 + b2 / 16, b2 % 16 * 4]
  | b1 :: b2 :: b3 :: rest =>
      b1 / 4 :: (b1 % 4 * 16 + b2 / 16) :: (b2 % 16 * 4 + b3 / 64)
        :: b3 % 64 :: toSextets rest

/-- Regroup sextets back into bytes, inverting `toSextets`; a dangling
single sextet (impossible in well-formed base64) decodes to nothing. -/
def fromSextets : List Nat → List Nat
  | [] => []
  | [_] => []
  | [s1, s2] => [s1 * 4 + s2 / 16]
  | [s1, s2, s3] => [s1 * 4 + s2 / 16, s2 % 16 * 16 + s3 / 4]
  | s1 :: s2 :: s3 :: s4 :: rest =>
      (s1 * 4 + s2 / 16) :: (s2 % 16 * 16 + s3 / 4) :: (s3 % 4 * 64 + s4)
        :: fromSextets rest

/-- The 64-character base64url alphabet: `A-Z`, `a-z`, `0-9`, then `-` and
`_` (in place of `+` and `/` of plain base64). -/
def b64Alphabet : List Char :=
  (List.range 26).map (fun i => Char.ofNat (65 + i)) ++
  (List.range 26).map (fun i => Char.ofNat (97 + i)) ++
  (List.range 10).map (fun i => Char.ofNat (48 + i)) ++ ['-', '_']

/-- Sextet value to alphabet character. -/
def encodeChar (n : Nat) : Char := b64Alphabet.getD n 'A'

/-- Alphabet character back to its sextet value. -/
def decodeChar (c : Char) : Nat := b64Alphabet.indexOf c

/-- `Base64Url.encode` (webcrypto-core): unpadded base64url of a byte
list. -/
def b64url_encode (bs : List Nat) : String := ⟨(toSextets bs).map encodeChar⟩

/-- `utils.b64_decode`: base64url string back to bytes. -/
def b64_decode (s : String) : List Nat := fromSextets (s.data.map decodeChar)

/-! ## Key export and import (`exportKey` aes.ts 60-84, `importKey`
aes.ts 86-110) -/

/-- The errors the embedded export path can signal. `unsupportedFormat`
stands for the `WebCryptoError` with message `Unknown format '<format>'`
thrown by `exportKey`'s default branch; `typeError` stands for the
JavaScript TypeError raised at line 67 when the non-null assertion
dereferences the `null` result of `/AES-(\w+)/.exec`;
`malformedAlgorithmName` is the domain error name the spec's taxonomy
assigns to a failed mode-suffix extraction (no code path produces it). -/
inductive JsError where
  | unsupportedFormat (format : String)
  | typeError
  | malformedAlgorithmName
deriving DecidableEq, Repr

/-- A JSON web key record as produced/consumed by the adapter. -/
structure JsonWebKey where
  kty : String
  k : String
  alg : String
  ext : Bool
deriving DecidableEq, Repr

/-- The key handle state read by `exportKey`: the algorithm metadata the
`CryptoKey` was created under and the `value`/`valueLen` attributes read
from the PKCS#11 object. -/
structure KeyModel where
  algName : String
  value : List Nat
  valueLen : Nat
deriving DecidableEq, Repr

/-- The result of a successful export: a JWK record or raw bytes. -/
inductive ExportResult where
  | jwk (j : JsonWebKey)
  | raw (bytes : List Nat)
deriving DecidableEq, Repr

/-- The format dispatch of `AesCrypto.exportKey` (aes.ts 64-81): switch on
`format.toLowerCase()`; `"jwk"` extracts the mode suffix with
`/AES-(\w+)/.exec(key.algorithm.name)![1]` and builds
`{kty: "oct", k: Base64Url.encode(value), alg: "A" + valueLen*8 + mode,
ext: true}`; `"raw"` returns the value bytes; anything else throws
`Unknown format '<format>'`. -/
def exportKeyStep (format : String) (key : KeyModel) :
    Except JsError ExportResult :=
  if toLowerCase format = "jwk" then
    match execAesMode key.algName with
    | some aes =>
        Except.ok (ExportResult.jwk
          { kty := "oct"
            k := b64url_encode key.value
            alg := "A" ++ toString (key.valueLen * 8) ++ aes
            ext := true })
    | none => Except.error JsError.typeError
  else if toLowerCase format = "raw" then
    Except.ok (ExportResult.raw key.value)
  else
    Except.error (JsError.unsupportedFormat format)

instance : DecidableEq (Except JsError ExportResult) := fun a b =>
  match a, b with
  | Except.ok x, Except.ok y =>
      if h : x = y then isTrue (by rw [h]) else isFalse (by simp [h])
  | Except.error x, Except.error y =>
      if h : x = y then isTrue (by rw [h]) else isFalse (by simp [h])
  | Except.ok _, Except.error _ => isFalse (by simp)
  | Except.error _, Except.ok _ => isFalse (by simp)

/-- The key data accepted by `importKey`: a JWK record or one of the raw
binary views. -/
inductive KeyData where
  | jwk (j : JsonWebKey)
  | bytes (b : List Nat)
deriving DecidableEq, Repr

/-- The key-value extraction of `AesCrypto.importKey` (aes.ts 91-96):
`format === "jwk"` (exact, case-sensitive) decodes the `k` field, any other
format treats the key data as raw bytes. The `none` results model the
unchecked JavaScript casts hitting data of the other shape. -/
def importKeyValue (format : String) (keyData : KeyData) :
    Option (List Nat) :=
  if format = "jwk" then
    match keyData with
    | KeyData.jwk j => some (b64_decode j.k)
    | KeyData.bytes _ => none
  else
    match keyData with
    | KeyData.bytes b => some b
    | KeyData.jwk _ => none

/-- The imported key: the session object's template and the derived
algorithm. -/
structure ImportedKey where
  template : ITemplate
  algorithm : AesKeyGenParams
deriving DecidableEq, Repr

/-- `AesCrypto.importKey` (aes.ts 89-108): extract the value, derive
`{name: algorithm.name, length: value.length * 8}`, build the template via
`create_template` with the value attached, and return the new key. No
branch rejects a format string. -/
def importKeyStep (format : String) (keyData : KeyData) (algName : String)
    (extractable : Bool) (keyUsages : List String) (env : EnvConfig)
    (id : Nat) : Option ImportedKey :=
  match importKeyValue format keyData with
  | none => none
  | some value =>
      let aesAlg : AesKeyGenParams := { name := algName, length := value.length * 8 }
      let template :=
        { create_template env id aesAlg extractable keyUsages with value := some value }
      some { template := template, algorithm := aesAlg }

/-! ## Helper lemmas for the padding engine and buffer sizing -/

theorem getLastD_append_replicate (l : List Nat) (n a : Nat) (h : n ≠ 0) :
    (l ++ List.replicate n a).getLastD 0 = a := by
  rw [List.getLastD_eq_getLast?, List.getLast?_append]
  cases n with
  | zero => exact absurd rfl h
  | succ k =>
    rw [List.replicate_succ', List.getLast?_concat]
    simp

/-- The rational ceiling of `ds / len` agrees with the closed-form natural
ceiling division `(ds + len - 1) / len` for positive `len`. -/
theorem natCeil_div_eq (ds len : Nat) (h : 0 < len) :
    ⌈(ds : ℚ) / (len : ℚ)⌉₊ = (ds + len - 1) / len := by
  have hlen : (0:ℚ) < (len : ℚ) := by exact_mod_cast h
  apply le_antisymm
  · rw [Nat.ceil_le, div_le_iff₀ hlen]
    have hub := Nat.lt_mul_div_succ (ds + len - 1) h
    have hmul : len * ((ds + len - 1) / len + 1)
        = (ds + len - 1) / len * len + len := by ring
    have h2 : ds ≤ (ds + len - 1) / len * len := by omega
    exact_mod_cast Nat.cast_le.mpr h2
  · rcases Nat.eq_zero_or_pos ((ds + len - 1) / len) with hq | hq
    · omega
    · have hlt : (ds + len - 1) / len - 1 < ⌈(ds : ℚ) / (len : ℚ)⌉₊ := by
        rw [Nat.lt_ceil, lt_div_iff₀ hlen]
        have hlb := Nat.div_mul_le_self (ds + len - 1) len
        have hs : ((ds + len - 1) / len - 1) * len
            = (ds + len - 1) / len * len - len := by
          rw [Nat.sub_mul, one_mul]
        have hxl : len ≤ (ds + len - 1) / len * len :=
          Nat.le_mul_of_pos_left len hq
        have h1 : ((ds + len - 1) / len - 1) * len < ds := by omega
        exact_mod_cast Nat.cast_lt.mpr h1
      omega

/-! ## Helper lemmas for strings and the base64url codec -/

theorem char_toNat_ofNat_valid (m : Nat) (h : m < 55296) :
    (Char.ofNat m).toNat = m := by
  have hv : m.isValidChar := Or.inl h
  simp [Char.ofNat, hv, Char.ofNatAux, Char.toNat, UInt32.toNat]

theorem char_toLower_toLower (c : Char) : c.toLower.toLower = c.toLower := by
  unfold Char.toLower
  by_cases h : c.toNat ≥ 65 ∧ c.toNat ≤ 90
  · rw [if_pos h]
    have ht : (Char.ofNat (c.toNat + 32)).toNat = c.toNat + 32 :=
      char_toNat_ofNat_valid _ (by omega)
    rw [ht, if_neg (by omega)]
  · rw [if_neg h, if_neg h]

theorem toLowerCase_idem (s : String) :
    toLowerCase (toLowerCase s) = toLowerCase s := by
  unfold toLowerCase
  congr 1
  rw [List.map_map]
  simp only [Function.comp_def, char_toLower_toLower]

theorem decodeChar_encodeChar : ∀ n < 64, decodeChar (encodeChar n) = n := by
  decide

theorem toSextets_lt (bs : List Nat) (h : ∀ b ∈ bs, b < 256) :
    ∀ s ∈ toSextets bs, s < 64 := by
  induction bs using toSextets.induct with
  | case1 => intro s hs; simp [toSextets] at hs
  | case2 b1 =>
      have h1 : b1 < 256 := h b1 (by simp)
      intro s hs
      simp only [toSextets, List.mem_cons, List.not_mem_nil, or_false] at hs
      rcases hs with rfl | rfl <;> omega
  | case3 b1 b2 =>
      have h1 : b1 < 256 := h b1 (by simp)
      have h2 : b2 < 256 := h b2 (by simp)
      intro s hs
      simp only [toSextets, List.mem_cons, List.not_mem_nil, or_false] at hs
      rcases hs with rfl | rfl | rfl <;> omega
  | case4 b1 b2 b3 rest ih =>
      have h1 : b1 < 256 := h b1 (by simp)
      have h2 : b2 < 256 := h b2 (by simp)
      have h3 : b3 < 256 := h b3 (by simp)
      have hrest : ∀ b ∈ rest, b < 256 := fun b hb => h b (by simp [hb])
      intro s hs
      simp only [toSextets, List.mem_cons] at hs
      rcases hs with rfl | rfl | rfl | rfl | hmem
      · omega
      · omega
      · omega
      · omega
      · exact ih hrest s hmem

theorem fromSextets_toSextets (bs : List Nat) (h : ∀ b ∈ bs, b < 256) :
    fromSextets (toSextets bs) = bs := by
  induction bs using toSextets.induct with
  | case1 => rfl
  | case2 b1 =>
      have h1 : b1 < 256 := h b1 (by simp)
      simp only [toSextets, fromSextets]
      congr 1
      omega
  | case3 b1 b2 =>
      have h1 : b1 < 256 := h b1 (by simp)
      have h2 : b2 < 256 := h b2 (by simp)
      simp only [toSextets, fromSextets]
      congr 1
      · omega
      · congr 1
        omega
  | case4 b1 b2 b3 rest ih =>
      have h1 : b1 < 256 := h b1 (by simp)
      have h2 : b2 < 256 := h b2 (by simp)
      have h3 : b3 < 256 := h b3 (by simp)
      have hrest : ∀ b ∈ rest, b < 256 := fun b hb => h b (by simp [hb])
      simp only [toSextets, fromSextets]
      rw [ih hrest]
      congr 1
      · omega
      · congr 1
        · omega
        · congr 1
          omega

/-- Decoding inverts encoding on genuine byte lists. -/
theorem b64_decode_encode (bs : List Nat) (h : ∀ b ∈ bs, b < 256) :
    b64_decode (b64url_encode bs) = bs := by
  unfold b64_decode b64url_encode
  rw [List.map_map]
  have hmap : (toSextets bs).map (decodeChar ∘ encodeChar)
      = (toSextets bs).map id := by
    apply List.map_congr_left
    intro s hs
    exact decodeChar_encodeChar s (toSextets_lt bs h s hs)
  rw [hmap, List.map_id]
  exact fromSextets_toSextets bs h

/-! ## Claims C1-C4 -/

/-- Claim C1: for every byte buffer `d`, unpadding the result of padding `d`
with block size 16 returns `d`: the padding appended by `encrypt` (when the
mode's padding flag is set) is exactly removed by the unpadding step of
`decrypt`, so `Unpad(Pad(d, 16)) = d`. -/
theorem claim_C1_unpad_pad_roundtrip (d : List Nat) : unpad (pad d) = d := by
  have hm1 : 16 - d.length % 16 ≠ 0 := by omega
  have hlast : (pad d).getLastD 0 = 16 - d.length % 16 := by
    unfold pad
    exact getLastD_append_replicate _ _ _ hm1
  have hlen : (pad d).length = d.length + (16 - d.length % 16) := by
    unfold pad; simp
  have he : ((d.length + (16 - d.length % 16) : Nat) : Int)
      - ((16 - d.length % 16 : Nat) : Int) = (d.length : Int) := by
    push_cast; omega
  simp only [unpad, hlast, hlen, he]
  rw [if_pos (by positivity : (0:Int) ≤ (d.length : Int)), Int.toNat_natCast]
  unfold pad
  exact List.take_left d _

/-- Claim C2: `Pad` with block size 16 appends exactly
`m = 16 - (len(data) mod 16)` bytes, each holding the value `m`; `m` is
always in `[1, 16]` and never 0, so a block-aligned input receives a full
extra block of padding. -/
theorem claim_C2_pad_appends_mod_bytes (data : List Nat) :
    (pad data).length = data.length + (16 - data.length % 16) ∧
    (pad data).take data.length = data ∧
    (pad data).drop data.length
      = List.replicate (16 - data.length % 16) (16 - data.length % 16) ∧
    1 ≤ 16 - data.length % 16 ∧ 16 - data.length % 16 ≤ 16 := by
  refine ⟨?_, ?_, ?_, by omega, by omega⟩
  · unfold pad; simp
  · unfold pad; exact List.take_left data _
  · unfold pad; exact List.drop_left data _

/-- Claim C3: the unpad step of `decrypt` reads the last byte as the padding
length `p` and returns all bytes except the final `p` bytes, with no
hypothesis about the contents of the trailing bytes (no validation that they
all equal `p`). -/
theorem claim_C3_unpad_drops_last_byte_count (buf : List Nat)
    (h : buf.getLastD 0 ≤ buf.length) :
    unpad buf = buf.take (buf.length - buf.getLastD 0) := by
  have h0 : (0:Int) ≤ (buf.length : Int) - (buf.getLastD 0 : Int) := by omega
  simp only [unpad]
  rw [if_pos h0]
  congr 1
  omega

/-- Witness for C3 at the buffer `[1,2,3,9,9,2]`: the last byte is 2 and
unpad removes the final two bytes `9, 2` even though they do not both equal
the padding value 2. -/
theorem claim_C3_witness :
    ([1,2,3,9,9,2] : List Nat).getLastD 0 ≤ 6 ∧
    unpad [1,2,3,9,9,2] = [1,2,3,9] :=
  ⟨by decide,
    (claim_C3_unpad_drops_last_byte_count [1,2,3,9,9,2] (by decide)).trans
      (by decide)⟩

/-- Claim C4: with `len = L / 8` the key's byte length, the output buffer
size is `ceil(dataSize / len) * len + len` for encryption (stated via the
closed natural-number form of the ceiling) and exactly `dataSize` for
decryption. -/
theorem claim_C4_getOutputBufferSize (L dataSize : Nat) (h : 0 < L >>> 3) :
    getOutputBufferSize L true dataSize
      = (dataSize + (L >>> 3) - 1) / (L >>> 3) * (L >>> 3) + (L >>> 3) ∧
    getOutputBufferSize L false dataSize = dataSize := by
  constructor
  · simp only [getOutputBufferSize, if_pos]
    rw [natCeil_div_eq dataSize (L >>> 3) h]
  · rfl

/-- Witness for C4: a 128-bit key (`len = 16`) with `dataSize = 20` yields
an encryption buffer of 48 bytes and a decryption buffer of 20 bytes. -/
theorem claim_C4_witness :
    0 < 128 >>> 3 ∧ getOutputBufferSize 128 true 20 = 48 ∧
    getOutputBufferSize 128 false 20 = 20 :=
  ⟨by decide,
    ((claim_C4_getOutputBufferSize 128 20 (by decide)).1).trans (by decide),
    (claim_C4_getOutputBufferSize 128 20 (by decide)).2⟩

/-! ## Claims C5-C6 -/

/-- Claim C5: each usage boolean of the key template is true iff the exact
token string is present in the requested usage list, and the label is
`AES-<length>` for the algorithm's bit length. -/
theorem claim_C5_create_template_usages (env : EnvConfig) (id : Nat)
    (alg : AesKeyGenParams) (ext : Bool) (usages : List String) :
    ((create_template env id alg ext usages).sign = true ↔ "sign" ∈ usages) ∧
    ((create_template env id alg ext usages).verify = true ↔ "verify" ∈ usages) ∧
    ((create_template env id alg ext usages).encrypt = true ↔ "encrypt" ∈ usages) ∧
    ((create_template env id alg ext usages).decrypt = true ↔ "decrypt" ∈ usages) ∧
    ((create_template env id alg ext usages).wrap = true ↔ "wrapKey" ∈ usages) ∧
    ((create_template env id alg ext usages).unwrap = true ↔ "unwrapKey" ∈ usages) ∧
    (create_template env id alg ext usages).label = "AES-" ++ toString alg.length := by
  simp [create_template]

/-- Claim C6 counterexample: interface version 3.0 is at least 2.40 in the
dotted-version order, yet the mapper instantiates the older `AesGcmParams`
encoding, because the code requires `major >= 2 && minor >= 40` and
`minor = 0 < 40`. -/
theorem claim_C6_counterexample :
    Version.atLeast ⟨3, 0⟩ 2 40 ∧
    (AesGCM.wc2pk11 { iv := [0] } (some ⟨3, 0⟩)).paramsClass
      = GcmParamsKind.aesGcmParams := by
  constructor
  · decide
  · rfl

/-- Claim C6 (amended): with a session supplied, the mapper selects the
newer `AesGcm240Params` encoding exactly when the reported interface
version has `major ≥ 2` and `minor ≥ 40`; in particular versions with
`major ≥ 3` but `minor < 40` (such as 3.0) still get the older encoding. -/
theorem claim_C6_gcm_params_selection (alg : AesGcmWcParams) (v : Version) :
    (AesGCM.wc2pk11 alg (some v)).paramsClass = GcmParamsKind.aesGcm240Params
      ↔ (2 ≤ v.major ∧ 40 ≤ v.minor) := by
  simp only [AesGCM.wc2pk11]
  by_cases h : 2 ≤ v.major ∧ 40 ≤ v.minor
  · simp [h]
  · simp [h]

/-! ## Claims C7-C10 -/

/-- Claim C7 counterexample: importing with the unrecognized format `"der"`
does not fail with `UnsupportedFormat`; the key data is treated as raw
bytes and the import succeeds, the bytes becoming the template value. -/
theorem claim_C7_counterexample :
    (importKeyStep "der" (KeyData.bytes [1,2,3]) "AES-CBC" true []
        ⟨false, false⟩ 0).map (fun k => k.template.value)
      = some (some [1,2,3]) := by
  rfl

/-- Claim C7 (amended): `exportKey` fails with `UnsupportedFormat` for every
format whose lowercase form is neither `"jwk"` nor `"raw"`, but `importKey`
never rejects a format string: any format other than exactly `"jwk"` is
treated as raw key bytes and the import succeeds. -/
theorem claim_C7_unsupported_format (format : String) (key : KeyModel)
    (keyData : List Nat) (algName : String) (ext : Bool) (us : List String)
    (env : EnvConfig) (id : Nat)
    (hj : toLowerCase format ≠ "jwk") (hr : toLowerCase format ≠ "raw") :
    exportKeyStep format key = Except.error (JsError.unsupportedFormat format) ∧
    (importKeyStep format (KeyData.bytes keyData) algName ext us env id).map
        (fun k => k.template.value) = some (some keyData) := by
  constructor
  · simp [exportKeyStep, hj, hr]
  · have hne : format ≠ "jwk" := fun hf => hj (by rw [hf]; rfl)
    simp [importKeyStep, importKeyValue, hne]

/-- Witness for C7 at `"der"`: export fails with the unsupported-format
error. -/
theorem claim_C7_witness :
    toLowerCase "der" ≠ "jwk" ∧ toLowerCase "der" ≠ "raw" ∧
    exportKeyStep "der" ⟨"AES-CBC", [1], 1⟩
      = Except.error (JsError.unsupportedFormat "der") :=
  ⟨by decide, by decide,
    (claim_C7_unsupported_format "der" ⟨"AES-CBC", [1], 1⟩ [1] "AES-CBC" true
      [] ⟨false, false⟩ 0 (by decide) (by decide)).1⟩

/-- Claim C8: importing with format `"jwk"` the record produced by exporting
a key with format `"jwk"` yields a key whose raw byte value equals the
original key's value: base64url decoding inverts base64url encoding of the
key value. -/
theorem claim_C8_jwk_export_import_roundtrip (key : KeyModel)
    (hbytes : ∀ b ∈ key.value, b < 256) (j : JsonWebKey)
    (hexp : exportKeyStep "jwk" key = Except.ok (ExportResult.jwk j))
    (algName : String) (ext : Bool) (us : List String) (env : EnvConfig)
    (id : Nat) :
    (importKeyStep "jwk" (KeyData.jwk j) algName ext us env id).map
        (fun k => k.template.value) = some (some key.value) := by
  have hjwk : toLowerCase "jwk" = "jwk" := rfl
  simp only [exportKeyStep, hjwk, if_pos] at hexp
  cases hA : execAesMode key.algName with
  | none => rw [hA] at hexp; exact absurd hexp (by simp)
  | some aes =>
      rw [hA] at hexp
      simp only [reduceIte, Except.ok.injEq, ExportResult.jwk.injEq] at hexp
      have hk : j.k = b64url_encode key.value := by rw [← hexp]
      simp [importKeyStep, importKeyValue, hk,
        b64_decode_encode key.value hbytes]

/-- Witness for C8 at a concrete 3-byte key under `"AES-CBC"`. -/
theorem claim_C8_witness :
    (∀ b ∈ ([0,1,255] : List Nat), b < 256) ∧
    exportKeyStep "jwk" ⟨"AES-CBC", [0,1,255], 3⟩
      = Except.ok (ExportResult.jwk ⟨"oct", "AAH_", "A24CBC", true⟩) ∧
    (importKeyStep "jwk" (KeyData.jwk ⟨"oct", "AAH_", "A24CBC", true⟩)
        "AES-CBC" true [] ⟨false, false⟩ 0).map (fun k => k.template.value)
      = some (some [0,1,255]) :=
  ⟨by decide, by decide,
    claim_C8_jwk_export_import_roundtrip ⟨"AES-CBC", [0,1,255], 3⟩ (by decide)
      ⟨"oct", "AAH_", "A24CBC", true⟩ (by decide) "AES-CBC" true []
      ⟨false, false⟩ 0⟩

/-- Claim C9 counterexample: exporting a key whose algorithm name is
`"RSA-OAEP"` (not of the form `AES-<MODE>`) with the JWK format fails with
the null-dereference `TypeError`, which is not the `MalformedAlgorithmName`
domain error the claim names. -/
theorem claim_C9_counterexample :
    exportKeyStep "jwk" ⟨"RSA-OAEP", [1], 1⟩ = Except.error JsError.typeError ∧
    JsError.typeError ≠ JsError.malformedAlgorithmName := by
  constructor
  · rfl
  · decide

/-- Claim C9 (amended): for every key whose algorithm name does not match
`/AES-(\w+)/`, `exportKey` with the JWK format fails, but with the
JavaScript `TypeError` raised by dereferencing the null regex match (the
promise rejects with that unrelated error), not with a
`MalformedAlgorithmName` domain error. -/
theorem claim_C9_export_name_mismatch_type_error (key : KeyModel)
    (h : execAesMode key.algName = none) :
    exportKeyStep "jwk" key = Except.error JsError.typeError := by
  have hjwk : toLowerCase "jwk" = "jwk" := rfl
  simp [exportKeyStep, hjwk, h]

/-- Witness for C9 at the algorithm name `"RSA-PSS"`. -/
theorem claim_C9_witness :
    execAesMode "RSA-PSS" = none ∧
    exportKeyStep "jwk" ⟨"RSA-PSS", [2], 1⟩ = Except.error JsError.typeError :=
  ⟨by decide,
    claim_C9_export_name_mismatch_type_error ⟨"RSA-PSS", [2], 1⟩ (by decide)⟩

/-- Claim C10: `exportKey` matches the format case-insensitively (it behaves
on `f` as on the lowercase form of `f`: the recognized branches agree
exactly, and an unrecognized format is rejected with the unsupported-format
error either way, the error merely echoing the format in its original
spelling), while `importKey` compares case-sensitively: only the exact
string `"jwk"` decodes the JWK record, and any other format string —
including `"JWK"` — treats the key data as raw bytes. -/
theorem claim_C10_format_case_sensitivity (f : String) (key : KeyModel)
    (j : JsonWebKey) (b : List Nat) :
    (toLowerCase f = "jwk" ∨ toLowerCase f = "raw" →
      exportKeyStep f key = exportKeyStep (toLowerCase f) key) ∧
    (toLowerCase f ≠ "jwk" → toLowerCase f ≠ "raw" →
      exportKeyStep f key = Except.error (JsError.unsupportedFormat f) ∧
      exportKeyStep (toLowerCase f) key
        = Except.error (JsError.unsupportedFormat (toLowerCase f))) ∧
    importKeyValue "jwk" (KeyData.jwk j) = some (b64_decode j.k) ∧
    (f ≠ "jwk" → importKeyValue f (KeyData.bytes b) = some b) := by
  refine ⟨?_, ?_, rfl, ?_⟩
  · intro hrec
    have h1 : toLowerCase "jwk" = "jwk" := rfl
    have h2 : toLowerCase "raw" = "raw" := rfl
    rcases hrec with h | h <;>
      simp [exportKeyStep, toLowerCase_idem, h, h1, h2]
  · intro hj hr
    constructor
    · simp [exportKeyStep, hj, hr]
    · simp [exportKeyStep, toLowerCase_idem, hj, hr]
  · intro hf
    simp [importKeyValue, hf]

/-- Witness for C10 at the uppercase format `"JWK"`: export treats it as
`"jwk"`, import treats it as a raw-bytes format. -/
theorem claim_C10_witness :
    ("JWK" : String) ≠ "jwk" ∧
    exportKeyStep "JWK" ⟨"AES-GCM", [1,2], 2⟩
      = exportKeyStep "jwk" ⟨"AES-GCM", [1,2], 2⟩ ∧
    exportKeyStep "RAW" ⟨"AES-GCM", [1,2], 2⟩
      = exportKeyStep "raw" ⟨"AES-GCM", [1,2], 2⟩ ∧
    importKeyValue "JWK" (KeyData.bytes [5,6]) = some [5,6] :=
  ⟨by decide,
    ((claim_C10_format_case_sensitivity "JWK" ⟨"AES-GCM", [1,2], 2⟩
        ⟨"oct", "", "", true⟩ [5,6]).1 (by decide)).trans (by decide),
    ((claim_C10_format_case_sensitivity "RAW" ⟨"AES-GCM", [1,2], 2⟩
        ⟨"oct", "", "", true⟩ [5,6]).1 (by decide)).trans (by decide),
    (claim_C10_format_case_sensitivity "JWK" ⟨"AES-GCM", [1,2], 2⟩
        ⟨"oct", "", "", true⟩ [5,6]).2.2.2 (by decide)⟩

end AesTs
